import Mathlib

/-!
Verification of the in-memory task model, change-tracking/commit pipeline,
value conversion layer and custom-data index of the `omniplan` Python module
(`omniplan.py`).  The Python code is shallowly embedded: Python dicts become
association lists, Python dynamic values become the `PValue` / `WireValue`
inductives, mutation of heap objects becomes explicit state passing, and
code that can raise returns `Option` / `Except`.  Python integers are
arbitrary precision and are modelled by `Int`.
-/

set_option autoImplicit false

namespace OmniPlan

/-! ### Association-list primitives

These model the Python `dict` operations the source uses: subscript lookup
(`d[k]` / `d.get(k, default)`), subscript assignment (`d[k] = v`, which
overwrites the existing entry or appends a new one), and in-place update of
one value. -/

/-- Python `d.get(k)`: value of the first entry with the given key. -/
def assocLookup {α β : Type} [DecidableEq α] : List (α × β) → α → Option β
  | [], _ => none
  | (k, v) :: rest, key => if k = key then some v else assocLookup rest key

/-- Python `d[k] = v`: overwrite the entry for `k` if present, else append. -/
def assocSet {α β : Type} [DecidableEq α] : List (α × β) → α → β → List (α × β)
  | [], key, value => [(key, value)]
  | (k, v) :: rest, key, value =>
      if k = key then (k, value) :: rest else (k, v) :: assocSet rest key value

/-- In-place update of the value stored under `key` (used to model mutation
of a task object that is aliased from the document's `task_map`). -/
def assocModify {α β : Type} [DecidableEq α] (l : List (α × β)) (key : α) (f : β → β) :
    List (α × β) :=
  l.map (fun p => if p.1 = key then (p.1, f p.2) else p)

/-! ### FourCharacterCode (`omniplan.py` lines 57-65)

`value_to_string` is `struct.pack('>i', value)`: the 4 big-endian bytes of a
signed 32-bit integer (`struct.error`, i.e. `none`, outside
`[-2^31, 2^31)`).  `string_to_value` is `struct.unpack('>i', string)[0]`:
the signed 32-bit value of a 4-byte string (`struct.error` when the length
is not 4).  Python 2 byte strings are modelled as `List Nat` with each byte
below 256.  The numeric literals are 2^24, 2^16, 2^31 and 2^32. -/

namespace FourCharacterCode

/-- `struct.pack('>i', value)`. -/
def value_to_string (value : Int) : Option (List Nat) :=
  if value < -2147483648 ∨ 2147483648 ≤ value then none
  else
    let u : Nat := (value % 4294967296).toNat
    some [u / 16777216, u / 65536 % 256, u / 256 % 256, u % 256]

/-- `struct.unpack('>i', string)[0]`. -/
def string_to_value : List Nat → Option Int
  | [a, b, c, d] =>
      if a < 256 ∧ b < 256 ∧ c < 256 ∧ d < 256 then
        let u : Nat := a * 16777216 + b * 65536 + c * 256 + d
        some (if u < 2147483648 then (u : Int) else (u : Int) - 4294967296)
      else none
  | _ => none

end FourCharacterCode

/-! ### WorkDayTimeInterval (`omniplan.py` lines 85-99)

The constructor stores `0`, then the `seconds` argument if it is truthy,
otherwise `workdays * SECONDS_PER_WORKDAY` if `workdays` is truthy.  An
omitted argument is `None`; a Python number is truthy iff it is nonzero. -/

def SECONDS_PER_WORKDAY : Int := 8 * 60 * 60

/-- Python truthiness of an optional numeric argument (`None` and `0` are
falsy, every other number is truthy). -/
def pyTruthyInt : Option Int → Bool
  | none => false
  | some n => n != 0

/-- The `_seconds` field produced by
`WorkDayTimeInterval.__init__(seconds, workdays)`. -/
def workDayTimeIntervalSeconds (seconds workdays : Option Int) : Int :=
  if pyTruthyInt seconds then seconds.getD 0
  else if pyTruthyInt workdays then workdays.getD 0 * SECONDS_PER_WORKDAY
  else 0

/-! ### Dynamic property values

`PValue` is the universe of values a (post-construction) task attribute can
hold in the fragment exercised here: `None`, integers, strings, decoded
`WorkDayTimeInterval` objects (identified by their `_seconds` field) and
decoded four-character-code byte strings. -/

inductive PValue where
  | vNone
  | vInt (n : Int)
  | vStr (s : String)
  | vInterval (seconds : Int)
  | vBytes (bs : List Nat)
deriving DecidableEq

/-- Python `str(value)` for the values above.  `str` of an int is its
decimal form; `str` of a string is itself; a `WorkDayTimeInterval` prints
through its `__repr__` (`'<WorkDayTimeInterval {:.1f} days>'` where
`days()` is Python 2 floor division of `_seconds` by 28800, so the
formatted number is that integer followed by `.0`); a byte string prints as
itself. -/
def pyValueStr : PValue → String
  | .vNone => "None"
  | .vInt n => toString n
  | .vStr s => s
  | .vInterval s => "<WorkDayTimeInterval " ++ toString (Int.fdiv s SECONDS_PER_WORKDAY) ++ ".0 days>"
  | .vBytes bs => String.mk (bs.map Char.ofNat)

/-! ### Mutable simple properties (`Task.mutable_simple_properties`, lines 349-353)

`SimplePropertyTaskChangeRecord`s are only ever created by
`Task.__setattr__` for keys of `mutable_simple_properties`, so the property
name stored in such a record is one of the three keys of that dict; this is
captured by the enumeration `MutableProp`.  The dict's value descriptors
(`quoted`, optional `applescript_property_name`) become total functions. -/

inductive MutableProp where
  | effort
  | name
  | completed_effort
deriving DecidableEq

/-- The task attribute name (dict key) of a mutable simple property. -/
def MutableProp.key : MutableProp → String
  | .effort => "effort"
  | .name => "name"
  | .completed_effort => "completed_effort"

/-- Membership test `key in Task.mutable_simple_properties`. -/
def toMutableProp (key : String) : Option MutableProp :=
  if key = "effort" then some .effort
  else if key = "name" then some .name
  else if key = "completed_effort" then some .completed_effort
  else none

/-- The `'quoted'` flag of the property's value descriptor. -/
def MutableProp.quoted : MutableProp → Bool
  | .effort => false
  | .name => true
  | .completed_effort => false

/-- `Task.applescript_name_for_property`: the descriptor's
`applescript_property_name` when present, else the property name itself. -/
def MutableProp.applescript_property_name : MutableProp → String
  | .effort => "effort"
  | .name => "name"
  | .completed_effort => "completed effort"

/-! ### Change records (`omniplan.py` lines 203-252)

`simpleProperty` is `SimplePropertyTaskChangeRecord` (stores the property
name and `old_value = getattr(task, property_name, None)` captured at
construction; the reference it keeps to the owning task is represented by
rendering against the current task state, see `change_applescript_code`).
`addResourceAssignment` is `AddResourceAssignmentTaskChangeRecord` (stores
the assignment's resource id, task id and units).  `setCustomDataValue` is
`SetCustomDataValueTaskChangeRecord` (stores the entry name and the value
passed to `set_custom_data_value` - it has no old-value field). -/

inductive ChangeRecord where
  | simpleProperty (property : MutableProp) (old_value : PValue)
  | addResourceAssignment (resourceId : PValue) (taskId : PValue) (units : Int)
  | setCustomDataValue (dataName : String) (value : PValue)
deriving DecidableEq

/-- `TaskChangeRecord.targets_document` (overridden to `True` only by
`AddResourceAssignmentTaskChangeRecord`). -/
def ChangeRecord.targets_document : ChangeRecord → Bool
  | .addResourceAssignment _ _ _ => true
  | _ => false

/-- The value a change record stores about the mutated property: the
`old_value` field of a simple-property record, the `value` field of a
set-custom-data record.  (Resource-assignment records store no property
value.)  This is the formal reading of a record "capturing" a value. -/
def changeRecordCapturedValue : ChangeRecord → Option PValue
  | .simpleProperty _ old => some old
  | .addResourceAssignment _ _ _ => none
  | .setCustomDataValue _ v => some v

/-! ### Dependency data -/

/-- One raw prerequisite descriptor of a task's `prerequisites_data` (the
wire-format dict with `prerequisite_task_id`, `dependent_task_id`,
`dependency_type` read by `process_dependencies`). -/
structure PrereqDescriptor where
  prerequisite_task_id : Int
  dependent_task_id : Int
  dependency_type : Int
deriving DecidableEq

/-- A `TaskDependency` object.  The Python object holds references to the
two task objects; tasks are identified here by their (unique, externally
assigned) `id` attribute value. -/
structure TaskDependencyRec where
  prerequisite_task : PValue
  dependent_task : PValue
  dependency_type : List Nat
deriving DecidableEq

/-! ### Task state (`class Task`, post-construction)

`attrs` holds the simple-property attributes installed by `__setattr__`
(`id`, `name`, `effort`, ...).  `custom_data` is the decoded custom-data
dict and `prerequisites_data` the raw prerequisite descriptors; both are
simple properties in the source, stored as typed fields here because their
values are containers.  `prerequisites` / `dependents` are the dependency
edge lists, `change_records` the pending change records.  `has_records`
models `hasattr(self, 'change_records')`: the attribute only exists once
`__init__` reaches its last line, and `add_change_record` drops records
before that. -/

structure TaskState where
  attrs : List (String × PValue)
  custom_data : List (String × PValue)
  prerequisites_data : List PrereqDescriptor
  prerequisites : List TaskDependencyRec
  dependents : List TaskDependencyRec
  change_records : List ChangeRecord
  has_records : Bool
deriving DecidableEq

/-- The document's custom-data index
`custom_data_value_to_task_map`: field name, then field value, then the
list of tasks (identified by their `id` attribute value) holding that
pair. -/
abbrev CustomIndex := List (String × List (PValue × List PValue))

namespace Task

/-- `getattr(task, key, None)`. -/
def getattr (t : TaskState) (key : String) : PValue :=
  (assocLookup t.attrs key).getD .vNone

/-- `Task.add_change_record`: appends, unless the `change_records`
attribute does not exist yet (during `__init__`). -/
def add_change_record (t : TaskState) (record : ChangeRecord) : TaskState :=
  if t.has_records then { t with change_records := t.change_records ++ [record] } else t

/-- `Task.__setattr__`: for a key of `mutable_simple_properties`, first
append a `SimplePropertyTaskChangeRecord` (which captures
`getattr(task, key, None)`, the value before the mutation), then install
the new value. -/
def setattr (t : TaskState) (key : String) (value : PValue) : TaskState :=
  let t1 := match toMutableProp key with
    | some p => add_change_record t (.simpleProperty p (getattr t key))
    | none => t
  { t1 with attrs := assocSet t1.attrs key value }

/-- `Task.clear_change_records` (`del(self.change_records[:])`). -/
def clear_change_records (t : TaskState) : TaskState :=
  { t with change_records := [] }

/-- `Task.custom_data_value`. -/
def custom_data_value (t : TaskState) (key : String) : PValue :=
  match assocLookup t.custom_data key with
  | some v => v
  | none => .vNone

end Task

/-! ### Custom-data index (`OmniPlanDocument`, lines 660-667) -/

/-- `OmniPlanDocument.tasks_for_custom_data_value`:
`self.custom_data_value_to_task_map.get(key, {}).get(value, [])`. -/
def tasks_for_custom_data_value (m : CustomIndex) (key : String) (value : PValue) :
    List PValue :=
  (assocLookup ((assocLookup m key).getD []) value).getD []

/-- One iteration of the loop in
`update_custom_data_value_to_task_map_for_task`:
`tasks = map.setdefault(key, {}).setdefault(value, [])` followed by
`if task not in tasks: tasks.append(task)` (the `setdefault` insertions and
the in-place append are reflected back into the functional map). -/
def addTaskToBucket (m : CustomIndex) (key : String) (value : PValue) (taskId : PValue) :
    CustomIndex :=
  let inner := (assocLookup m key).getD []
  let bucket := (assocLookup inner value).getD []
  let bucket1 := if taskId ∈ bucket then bucket else bucket ++ [taskId]
  assocSet m key (assocSet inner value bucket1)

/-- `OmniPlanDocument.update_custom_data_value_to_task_map_for_task`:
iterate over the task's `custom_data` items, registering the task under
each (name, value) pair. -/
def update_custom_data_value_to_task_map_for_task (m : CustomIndex) (taskId : PValue)
    (cd : List (String × PValue)) : CustomIndex :=
  cd.foldl (fun acc kv => addTaskToBucket acc kv.1 kv.2 taskId) m

/-- Every bucket of the index is free of duplicate entries. -/
def NodupIndex (m : CustomIndex) : Prop :=
  ∀ key value, (tasks_for_custom_data_value m key value).Nodup

namespace Task

/-- `Task.set_custom_data_value`: install the new value in the task's
`custom_data` dict, re-register the task in the document's custom-data
index (which reads the already-updated dict), then append a
`SetCustomDataValueTaskChangeRecord` holding the name and the new value.
The owning document is represented by its custom-data index `m`. -/
def set_custom_data_value (t : TaskState) (m : CustomIndex) (dataName : String)
    (value : PValue) : TaskState × CustomIndex :=
  let t1 := { t with custom_data := assocSet t.custom_data dataName value }
  let m1 := update_custom_data_value_to_task_map_for_task m (getattr t1 "id") t1.custom_data
  let t2 := add_change_record t1 (.setCustomDataValue dataName value)
  (t2, m1)

/-- `Task.assign_to_resource`: builds a `ResourceAssignment` (units 1) and
appends an `AddResourceAssignmentTaskChangeRecord` for it.  (The
assignment's registration on the resource's and task's assignment lists is
not modelled; no claim concerns it.) -/
def assign_to_resource (t : TaskState) (resourceId : PValue) : TaskState :=
  add_change_record t (.addResourceAssignment resourceId (getattr t "id") 1)

/-- The encoding half of the value converters used when rendering a mutable
simple property (`Task.converted_value_for_property_and_value`): `effort`
and `completed_effort` use `WorkDayTimeIntervalValueConverter`, whose
`encode_omniplan_value` returns the interval's `_seconds`; `name` has no
converter.  (On a non-interval value the source would raise
`AttributeError`; these properties only ever hold intervals.) -/
def encode_omniplan_value : MutableProp → PValue → PValue
  | .effort, .vInterval s => .vInt s
  | .completed_effort, .vInterval s => .vInt s
  | _, v => v

/-- `Task.applescript_value_for_property`: encode the current attribute
value, then quote it (escaping double quotes) when the property descriptor
says `quoted`. -/
def applescript_value_for_property (t : TaskState) (p : MutableProp) : String :=
  let v := encode_omniplan_value p (getattr t p.key)
  if p.quoted then "\"" ++ (pyValueStr v).replace "\"" "\\\"" ++ "\""
  else pyValueStr v

/-- `change_applescript_code` of each record class.  A simple-property
record renders `set <applescript name> to <applescript value>` where the
value is read from the record's task reference, i.e. from the task state
current at render time (not from the record's `old_value`). -/
def change_applescript_code (t : TaskState) : ChangeRecord → String
  | .simpleProperty p _ =>
      "set " ++ p.applescript_property_name ++ " to " ++ applescript_value_for_property t p
  | .addResourceAssignment rid tid units =>
      "assign resource " ++ pyValueStr rid ++ " to task " ++ pyValueStr tid ++
        " units " ++ toString units
  | .setCustomDataValue dataName value =>
      "make custom data entry with properties \x7bname:\"" ++ dataName ++
        "\", value:\"" ++ pyValueStr value ++ "\"\x7d"

/-- `OmniPlanDocument.applescript_target_wrapper` with the inner code
substituted for the `{}` placeholder. -/
def doc_target_wrapper (docName inner : String) : String :=
  "\n        tell document \"" ++ docName ++ "\" of application \"OmniPlan\"\n            " ++
    inner ++ "\n        end tell\n        "

/-- `Task.applescript_target_wrapper` (the task `tell` block nested inside
the document wrapper), with the inner code substituted. -/
def task_target_wrapper (docName taskIdStr inner : String) : String :=
  doc_target_wrapper docName
    ("\n            tell task " ++ taskIdStr ++ "\n                " ++ inner ++
      "\n            end tell\n        ")

/-- `Task.commit_changes` up to (but not including) the bridge call: grab
the pending records, partition them into document-targeting and
task-targeting, clear the pending list, then render the task-targeting
records inside the task wrapper followed by the document-targeting records
inside the document wrapper.  Returns the cleared task and the combined
script. -/
def commit_prepare (docName : String) (t : TaskState) : TaskState × String :=
  let change_records := t.change_records
  let records_targeting_document := change_records.filter (fun r => r.targets_document)
  let records_targeting_task := change_records.filter (fun r => !r.targets_document)
  let cleared := clear_change_records t
  let change_code := String.intercalate "\n"
    (records_targeting_task.map (change_applescript_code cleared))
  let change_wrapped := task_target_wrapper docName (pyValueStr (getattr cleared "id")) change_code
  let doc_code := String.intercalate "\n"
    (records_targeting_document.map (change_applescript_code cleared))
  (cleared, change_wrapped ++ doc_target_wrapper docName doc_code)

/-- `Task.commit_changes`: after `commit_prepare`, either print the script
(dry run) or send it through the mutation bridge (`AppleScript(...).run()`).
Returns the task state together with the list of scripts sent through the
bridge and the list of scripts printed. -/
def commit_changes (docName : String) (t : TaskState) (dry_run : Bool) :
    TaskState × List String × List String :=
  let p := commit_prepare docName t
  if dry_run then (p.1, ([], [p.2])) else (p.1, ([p.2], []))

/-- The rendered write operations of a commit, in the order they appear in
the combined script: the task-targeting records' operations (in recorded
order) followed by the document-targeting records' operations (in recorded
order). -/
def commit_rendered_operations (t : TaskState) : List String :=
  let cleared := clear_change_records t
  (t.change_records.filter (fun r => !r.targets_document)).map (change_applescript_code cleared) ++
    (t.change_records.filter (fun r => r.targets_document)).map (change_applescript_code cleared)

end Task

/-! ### Document task index and dependency processing
(`OmniPlanDocument`, lines 632-638 and 669-670; `TaskDependency`,
lines 531-539) -/

/-- The document state needed by dependency processing: the `task_map`
from task `id` attribute values to task objects. -/
structure DocState where
  task_map : List (PValue × TaskState)
deriving DecidableEq

/-- `OmniPlanDocument.task_for_id` (a missing id raises `KeyError`, i.e.
`none`). -/
def task_for_id (d : DocState) (taskId : PValue) : Option TaskState :=
  assocLookup d.task_map taskId

/-- Mutation of the task object stored under `taskId` (Python mutates the
aliased object in place). -/
def modify_task (d : DocState) (taskId : PValue) (f : TaskState → TaskState) : DocState :=
  { d with task_map := assocModify d.task_map taskId f }

/-- `Task.add_dependent`. -/
def add_dependent (t : TaskState) (dep : TaskDependencyRec) : TaskState :=
  { t with dependents := t.dependents ++ [dep] }

/-- `Task.add_prerequisite`. -/
def add_prerequisite (t : TaskState) (dep : TaskDependencyRec) : TaskState :=
  { t with prerequisites := t.prerequisites ++ [dep] }

/-- `Task.dependent_tasks` (tasks identified by id). -/
def dependent_tasks (t : TaskState) : List PValue :=
  t.dependents.map (fun dep => dep.dependent_task)

/-- `Task.prerequisite_tasks` (tasks identified by id). -/
def prerequisite_tasks (t : TaskState) : List PValue :=
  t.prerequisites.map (fun dep => dep.prerequisite_task)

/-- `TaskDependency.__init__`: store the endpoints and type, then register
the new edge with `prerequisite_task.add_dependent` and
`dependent_task.add_prerequisite`. -/
def taskDependency_init (d : DocState) (preId depId : PValue) (dtype : List Nat) : DocState :=
  let edge : TaskDependencyRec :=
    { prerequisite_task := preId, dependent_task := depId, dependency_type := dtype }
  modify_task (modify_task d preId (fun t => add_dependent t edge)) depId
    (fun t => add_prerequisite t edge)

/-- One iteration of the loop body of
`OmniPlanDocument.process_dependencies`: look up the two endpoint tasks
(`KeyError` if either id is dangling), decode the dependency type
(`struct.error` if out of the 32-bit range), and construct the
`TaskDependency`. -/
def process_one_dependency (d : DocState) (pd : PrereqDescriptor) : Except String DocState :=
  match task_for_id d (.vInt pd.prerequisite_task_id),
      task_for_id d (.vInt pd.dependent_task_id),
      FourCharacterCode.value_to_string pd.dependency_type with
  | some _, some _, some ty =>
      .ok (taskDependency_init d (.vInt pd.prerequisite_task_id) (.vInt pd.dependent_task_id) ty)
  | _, _, _ => .error "KeyError or struct.error in process_dependencies"

/-- Sequential processing of a list of prerequisite descriptors, stopping
at the first error. -/
def process_descriptor_list : DocState → List PrereqDescriptor → Except String DocState
  | d, [] => .ok d
  | d, pd :: rest =>
      match process_one_dependency d pd with
      | .error e => .error e
      | .ok d1 => process_descriptor_list d1 rest

/-- The prerequisite descriptors of all tasks, in task-enumeration order
(constructing dependencies never touches any task's `prerequisites_data`,
so reading them up front is equivalent to the source's lazy iteration). -/
def all_prerequisites_data (d : DocState) : List PrereqDescriptor :=
  d.task_map.foldr (fun p acc => p.2.prerequisites_data ++ acc) []

/-- `OmniPlanDocument.process_dependencies`. -/
def process_dependencies (d : DocState) : Except String DocState :=
  process_descriptor_list d (all_prerequisites_data d)

/-- Task `who` has an incoming prerequisite edge from `target`
(`target in who.prerequisite_tasks()`). -/
def HasPrereqEdge (d : DocState) (who target : PValue) : Prop :=
  ∃ t, task_for_id d who = some t ∧ target ∈ prerequisite_tasks t

/-- Task `who` has an outgoing dependent edge to `target`
(`target in who.dependent_tasks()`). -/
def HasDependentEdge (d : DocState) (who target : PValue) : Prop :=
  ∃ t, task_for_id d who = some t ∧ target ∈ dependent_tasks t

/-! ### Task construction (`Task.__init__`, lines 366-398)

The constructor loop is modelled one level deep: every (key, value) pair of
the property bag is decoded with the property's registered converter (a
decode failure propagates), keys in `simple_properties` are installed as
attributes, the `child_tasks` value is handed to
`add_tasks_for_task_data_list` (kept raw here - recursive materialization
of children does not affect the key checks this model is used for), and any
other key raises.  After the loop, construction fails if any key of
`simple_properties` is missing from the bag.  Wire values (`WireValue`)
carry the nested containers a property bag can contain. -/

inductive WireValue where
  | wNone
  | wInt (n : Int)
  | wStr (s : String)
  | wDate (t : Int) (utc : Bool)
  | wInterval (seconds : Int)
  | wBytes (bs : List Nat)
  | wList (items : List WireValue)
  | wDict (pairs : List (String × WireValue))

/-- The errors `Task.__init__` can raise: an unknown key, the set of
missing required keys, or a converter failure on the named key. -/
inductive InitError where
  | unknownKey (key : String)
  | missingKeys (keys : List String)
  | decodeError (key : String)
deriving DecidableEq

/-- `Task.simple_properties` (line 348). -/
def simple_properties : List String :=
  ["completed_effort", "ending_constraint_date", "outline_number", "ending_date",
   "duration", "remaining_effort", "effort", "id", "name", "total_cost", "priority",
   "starting_date", "starting_constraint_date", "prerequisites_data", "custom_data",
   "task_type", "task_status"]

/-- `CustomDataValueConverter.decode_omniplan_value`:
`{pair['name']: pair['value'] for pair in pairs}` - each element must be a
dict with `name` (a string) and `value` keys; duplicate names collapse to
the last-seen value. -/
def decode_custom_data : List WireValue → List (String × WireValue) →
    Option (List (String × WireValue))
  | [], acc => some acc
  | .wDict pairs :: rest, acc =>
      match assocLookup pairs "name", assocLookup pairs "value" with
      | some (.wStr nm), some v => decode_custom_data rest (assocSet acc nm v)
      | _, _ => none
  | _ :: _, _ => none

/-- `value_converter_for_property(key).decode_omniplan_value(value)` for
the converter registered in `Task.property_value_converter_map` (`none`
models the converter raising).  Keys without a converter pass the value
through unchanged. -/
def decode_property_value (key : String) (value : WireValue) : Option WireValue :=
  if key = "effort" ∨ key = "completed_effort" then
    -- WorkDayTimeIntervalValueConverter: WorkDayTimeInterval(seconds=value)
    match value with
    | .wInt n => some (.wInterval n)
    | .wNone => some (.wInterval 0)
    | _ => none
  else if key = "custom_data" then
    match value with
    | .wList items => (decode_custom_data items []).map .wDict
    | _ => none
  else if key = "task_type" ∨ key = "task_status" then
    -- FourCharacterCodeValueConverter: FourCharacterCode.value_to_string(value)
    match value with
    | .wInt n => (FourCharacterCode.value_to_string n).map .wBytes
    | _ => none
  else if key = "ending_date" ∨ key = "starting_constraint_date" ∨ key = "starting_date" then
    -- UTCDateValueConverter: None for a falsy value, else attach the UTC zone
    match value with
    | .wNone => some .wNone
    | .wStr s => if s = "" then some .wNone else none
    | .wDate t _ => some (.wDate t true)
    | _ => none
  else some value

/-- The state the constructor builds: the decoded attributes installed so
far and the raw `child_tasks` payload (its recursive materialization is
outside this model). -/
structure TaskInitState where
  attrs : List (String × WireValue)
  child_tasks_raw : Option WireValue

/-- The `for key, value in task_data.items()` loop of `Task.__init__`:
decode, then install a known simple property, collect `child_tasks`, or
fail on an unknown key. -/
def task_init_loop : List (String × WireValue) → TaskInitState → Except InitError TaskInitState
  | [], acc => .ok acc
  | (key, value) :: rest, acc =>
      match decode_property_value key value with
      | none => .error (.decodeError key)
      | some v =>
          if key ∈ simple_properties then
            task_init_loop rest { acc with attrs := assocSet acc.attrs key v }
          else if key = "child_tasks" then
            task_init_loop rest { acc with child_tasks_raw := some v }
          else .error (.unknownKey key)

/-- `Task.__init__` on a property bag: run the loop, then check the fixed
required-property set for completeness
(`missing_simple_properties = self.simple_properties - actual_keys`). -/
def task_init (bag : List (String × WireValue)) : Except InitError TaskInitState :=
  match task_init_loop bag { attrs := [], child_tasks_raw := none } with
  | .error e => .error e
  | .ok st =>
      let actual_keys := bag.map (fun kv => kv.1)
      let missing := simple_properties.filter (fun p => decide (p ∉ actual_keys))
      if missing.isEmpty then .ok st else .error (.missingKeys missing)

/-! ### Concrete states used by witnesses and counterexamples -/

/-- A freshly loaded task (construction finished, so `has_records` holds
and the pending record list is empty) with the given attributes and custom
data. -/
def exampleTask (attrs : List (String × PValue)) (cd : List (String × PValue)) : TaskState :=
  { attrs := attrs, custom_data := cd, prerequisites_data := [], prerequisites := [],
    dependents := [], change_records := [], has_records := true }

/-- Task 2 of the concrete three-task document: its raw descriptor names
task 3 as prerequisite and task 2 (itself) as dependent. -/
def exampleTaskB : TaskState :=
  { exampleTask [("id", .vInt 2)] [] with
    prerequisites_data :=
      [{ prerequisite_task_id := 3, dependent_task_id := 2, dependency_type := 1330664531 }] }

/-- A loaded three-task document (ids 1, 2, 3) whose only dependency
descriptor sits on task 2. -/
def exampleDoc : DocState :=
  { task_map :=
      [(.vInt 1, exampleTask [("id", .vInt 1)] []),
       (.vInt 2, exampleTaskB),
       (.vInt 3, exampleTask [("id", .vInt 3)] [])] }

/-- The document after `process_dependencies` registered the single
dependency edge (type "OPTS"). -/
def exampleDocProcessed : DocState :=
  taskDependency_init exampleDoc (.vInt 3) (.vInt 2) [79, 80, 84, 83]

/-- A complete, well-formed property bag holding every required simple
property with a decodable value. -/
def demoBagEntries : List (String × WireValue) :=
  [("completed_effort", .wInt 0), ("ending_constraint_date", .wStr ""),
   ("outline_number", .wStr "1"), ("ending_date", .wNone), ("duration", .wInt 5),
   ("remaining_effort", .wInt 0), ("effort", .wInt 28800), ("id", .wInt 1),
   ("name", .wStr "A"), ("total_cost", .wInt 0), ("priority", .wInt 0),
   ("starting_date", .wNone), ("starting_constraint_date", .wNone),
   ("prerequisites_data", .wList []), ("custom_data", .wList []),
   ("task_type", .wInt 1330664531), ("task_status", .wInt 1330664531)]

/-- The complete bag plus one unrecognized key. -/
def demoBagUnknown : List (String × WireValue) :=
  demoBagEntries ++ [("bogus", .wInt 0)]

/-- The complete bag with the required property `effort` removed. -/
def demoBagMissingEffort : List (String × WireValue) :=
  [("completed_effort", .wInt 0), ("ending_constraint_date", .wStr ""),
   ("outline_number", .wStr "1"), ("ending_date", .wNone), ("duration", .wInt 5),
   ("remaining_effort", .wInt 0), ("id", .wInt 1),
   ("name", .wStr "A"), ("total_cost", .wInt 0), ("priority", .wInt 0),
   ("starting_date", .wNone), ("starting_constraint_date", .wNone),
   ("prerequisites_data", .wList []), ("custom_data", .wList []),
   ("task_type", .wInt 1330664531), ("task_status", .wInt 1330664531)]

/-! ## Theorems -/

/-! ### Association-list lemmas -/

theorem assocLookup_assocSet_self {α β : Type} [DecidableEq α] (l : List (α × β)) (k : α)
    (v : β) : assocLookup (assocSet l k v) k = some v := by
  induction l with
  | nil => simp [assocSet, assocLookup]
  | cons head rest ih =>
    obtain ⟨hk, hv⟩ := head
    by_cases h : hk = k
    · subst h; simp [assocSet, assocLookup]
    · simp [assocSet, assocLookup, h, ih]

theorem assocLookup_assocSet_of_ne {α β : Type} [DecidableEq α] (l : List (α × β))
    (k key : α) (v : β) (h : key ≠ k) :
    assocLookup (assocSet l k v) key = assocLookup l key := by
  induction l with
  | nil => simp [assocSet, assocLookup, Ne.symm h]
  | cons head rest ih =>
    obtain ⟨hk, hv⟩ := head
    by_cases h1 : hk = k
    · subst h1; simp [assocSet, assocLookup, Ne.symm h]
    · simp [assocSet, assocLookup, h1, ih]

theorem assocSet_eq_of_lookup {α β : Type} [DecidableEq α] (l : List (α × β)) (k : α)
    (v : β) (h : assocLookup l k = some v) : assocSet l k v = l := by
  induction l with
  | nil => simp [assocLookup] at h
  | cons head rest ih =>
    obtain ⟨hk, hv⟩ := head
    by_cases h1 : hk = k
    · subst h1
      simp only [assocLookup, if_true, eq_self_iff_true, Option.some.injEq] at h
      subst h
      simp [assocSet]
    · simp only [assocLookup, if_neg h1] at h
      simp [assocSet, h1, ih h]

theorem mem_assocSet_self {α β : Type} [DecidableEq α] (l : List (α × β)) (k : α) (v : β) :
    (k, v) ∈ assocSet l k v := by
  induction l with
  | nil => simp [assocSet]
  | cons head rest ih =>
    obtain ⟨hk, hv⟩ := head
    by_cases h : hk = k
    · subst h; simp [assocSet]
    · simp [assocSet, h, ih]

theorem assocModify_cons {α β : Type} [DecidableEq α] (hk : α) (hv : β)
    (rest : List (α × β)) (k : α) (f : β → β) :
    assocModify ((hk, hv) :: rest) k f =
      (if hk = k then (hk, f hv) else (hk, hv)) :: assocModify rest k f := by
  by_cases h : hk = k <;> simp [assocModify, h]

theorem assocLookup_assocModify {α β : Type} [DecidableEq α] (l : List (α × β)) (k key : α)
    (f : β → β) :
    assocLookup (assocModify l k f) key =
      if key = k then (assocLookup l k).map f else assocLookup l key := by
  induction l with
  | nil => by_cases h : key = k <;> simp [assocModify, assocLookup, h]
  | cons head rest ih =>
    obtain ⟨hk, hv⟩ := head
    rw [assocModify_cons]
    by_cases h1 : hk = k
    · subst h1
      rw [if_pos rfl]
      by_cases h2 : key = hk
      · subst h2
        simp [assocLookup]
      · rw [if_neg h2]
        simp only [assocLookup, if_neg (fun hh : hk = key => h2 hh.symm)]
        rw [ih, if_neg h2]
    · rw [if_neg h1]
      by_cases h2 : key = k
      · subst h2
        rw [if_pos rfl]
        simp only [assocLookup, if_neg h1]
        rw [ih, if_pos rfl]

      · rw [if_neg h2]
        by_cases h3 : hk = key
        · subst h3
          simp [assocLookup]
        · simp only [assocLookup, if_neg h3]
          rw [ih, if_neg h2]

/-! ### Custom-data index lemmas -/

theorem tasks_for_addTaskToBucket (m : CustomIndex) (k : String) (v : PValue)
    (tid : PValue) (key : String) (value : PValue) :
    tasks_for_custom_data_value (addTaskToBucket m k v tid) key value =
      if key = k ∧ value = v then
        (if tid ∈ tasks_for_custom_data_value m k v then tasks_for_custom_data_value m k v
         else tasks_for_custom_data_value m k v ++ [tid])
      else tasks_for_custom_data_value m key value := by
  by_cases h1 : key = k
  · subst h1
    by_cases h2 : value = v
    · subst h2
      rw [if_pos (And.intro rfl rfl)]
      simp only [addTaskToBucket, tasks_for_custom_data_value]
      rw [assocLookup_assocSet_self, Option.getD_some, assocLookup_assocSet_self,
        Option.getD_some]
    · rw [if_neg (fun hh : key = key ∧ value = v => h2 hh.2)]
      simp only [addTaskToBucket, tasks_for_custom_data_value]
      rw [assocLookup_assocSet_self, Option.getD_some, assocLookup_assocSet_of_ne _ _ _ _ h2]
  · rw [if_neg (fun hh : key = k ∧ value = v => h1 hh.1)]
    simp only [addTaskToBucket, tasks_for_custom_data_value]
    rw [assocLookup_assocSet_of_ne _ _ _ _ h1]

theorem mem_tasks_for_addTaskToBucket_mono (m : CustomIndex) (k : String) (v : PValue)
    (tid : PValue) (key : String) (value : PValue) (x : PValue)
    (h : x ∈ tasks_for_custom_data_value m key value) :
    x ∈ tasks_for_custom_data_value (addTaskToBucket m k v tid) key value := by
  rw [tasks_for_addTaskToBucket]
  by_cases hc : key = k ∧ value = v
  · obtain ⟨rfl, rfl⟩ := hc
    rw [if_pos (And.intro rfl rfl)]
    by_cases hm : tid ∈ tasks_for_custom_data_value m key value
    · rw [if_pos hm]; exact h
    · rw [if_neg hm]; exact List.mem_append_left _ h
  · rw [if_neg hc]; exact h

theorem self_mem_tasks_for_addTaskToBucket (m : CustomIndex) (k : String) (v : PValue)
    (tid : PValue) : tid ∈ tasks_for_custom_data_value (addTaskToBucket m k v tid) k v := by
  rw [tasks_for_addTaskToBucket, if_pos (And.intro rfl rfl)]
  by_cases hm : tid ∈ tasks_for_custom_data_value m k v
  · rw [if_pos hm]; exact hm
  · rw [if_neg hm]; exact List.mem_append_right _ (by simp)

theorem update_map_nil (m : CustomIndex) (tid : PValue) :
    update_custom_data_value_to_task_map_for_task m tid [] = m := rfl

theorem update_map_cons (m : CustomIndex) (tid : PValue) (kv : String × PValue)
    (rest : List (String × PValue)) :
    update_custom_data_value_to_task_map_for_task m tid (kv :: rest) =
      update_custom_data_value_to_task_map_for_task (addTaskToBucket m kv.1 kv.2 tid) tid
        rest := rfl

theorem mem_tasks_for_update_mono (cd : List (String × PValue)) (m : CustomIndex)
    (tid : PValue) (key : String) (value : PValue) (x : PValue)
    (h : x ∈ tasks_for_custom_data_value m key value) :
    x ∈ tasks_for_custom_data_value
      (update_custom_data_value_to_task_map_for_task m tid cd) key value := by
  induction cd generalizing m with
  | nil => exact h
  | cons kv rest ih =>
    rw [update_map_cons]
    exact ih _ (mem_tasks_for_addTaskToBucket_mono _ _ _ _ _ _ _ h)

theorem mem_tasks_for_update_self (cd : List (String × PValue)) (m : CustomIndex)
    (tid : PValue) (k : String) (v : PValue) :
    (k, v) ∈ cd →
      tid ∈ tasks_for_custom_data_value
        (update_custom_data_value_to_task_map_for_task m tid cd) k v := by
  induction cd generalizing m with
  | nil => intro h; simp at h
  | cons kv rest ih =>
    intro h
    rw [update_map_cons]
    rcases List.mem_cons.mp h with h1 | h2
    · rw [← h1]
      exact mem_tasks_for_update_mono rest _ tid k v tid
        (self_mem_tasks_for_addTaskToBucket m k v tid)
    · exact ih _ h2

theorem addTaskToBucket_eq_of_mem (m : CustomIndex) (k : String) (v : PValue) (tid : PValue)
    (h : tid ∈ tasks_for_custom_data_value m k v) : addTaskToBucket m k v tid = m := by
  unfold tasks_for_custom_data_value at h
  cases h1 : assocLookup m k with
  | none =>
    rw [h1] at h
    simp [assocLookup] at h
  | some inner =>
    rw [h1, Option.getD_some] at h
    cases h2 : assocLookup inner v with
    | none =>
      rw [h2] at h
      simp at h
    | some bucket =>
      rw [h2, Option.getD_some] at h
      simp only [addTaskToBucket, h1, Option.getD_some, h2]
      rw [if_pos h, assocSet_eq_of_lookup _ _ _ h2, assocSet_eq_of_lookup _ _ _ h1]

theorem update_map_eq_of_all_mem (cd : List (String × PValue)) (m : CustomIndex)
    (tid : PValue) (h : ∀ kv ∈ cd, tid ∈ tasks_for_custom_data_value m kv.1 kv.2) :
    update_custom_data_value_to_task_map_for_task m tid cd = m := by
  induction cd with
  | nil => rfl
  | cons kv rest ih =>
    rw [update_map_cons, addTaskToBucket_eq_of_mem m kv.1 kv.2 tid (h kv (by simp))]
    exact ih (fun x hx => h x (by simp [hx]))

theorem update_map_idem (m : CustomIndex) (tid : PValue) (cd : List (String × PValue)) :
    update_custom_data_value_to_task_map_for_task
        (update_custom_data_value_to_task_map_for_task m tid cd) tid cd =
      update_custom_data_value_to_task_map_for_task m tid cd :=
  update_map_eq_of_all_mem cd _ tid
    (fun kv hkv => mem_tasks_for_update_self cd m tid kv.1 kv.2 (by simpa using hkv))

theorem nodupIndex_addTaskToBucket (m : CustomIndex) (k : String) (v : PValue) (tid : PValue)
    (h : NodupIndex m) : NodupIndex (addTaskToBucket m k v tid) := by
  intro key value
  rw [tasks_for_addTaskToBucket]
  by_cases hc : key = k ∧ value = v
  · rw [if_pos hc]
    by_cases hm : tid ∈ tasks_for_custom_data_value m k v
    · rw [if_pos hm]; exact h k v
    · rw [if_neg hm]
      exact List.nodup_append.mpr
        ⟨h k v, List.nodup_singleton _,
         fun x hx hx1 => hm (by rwa [List.mem_singleton.mp hx1] at hx)⟩
  · rw [if_neg hc]; exact h key value

theorem nodupIndex_update (cd : List (String × PValue)) (m : CustomIndex) (tid : PValue)
    (h : NodupIndex m) :
    NodupIndex (update_custom_data_value_to_task_map_for_task m tid cd) := by
  induction cd generalizing m with
  | nil => exact h
  | cons kv rest ih =>
    rw [update_map_cons]
    exact ih _ (nodupIndex_addTaskToBucket _ _ _ _ h)

/-! ### C3: stale custom-data index buckets -/

/-- C3: after a task holding custom-data value X under field name f calls
`set_custom_data_value(f, Y)`, the document's custom-data index lists that
task both under (f, X) and under (f, Y): the old bucket entry is never
removed. -/
theorem claim_C3_stale_bucket (t : TaskState) (m : CustomIndex) (f : String) (vX vY : PValue)
    (h : Task.getattr t "id" ∈ tasks_for_custom_data_value m f vX) :
    Task.getattr t "id" ∈
        tasks_for_custom_data_value (Task.set_custom_data_value t m f vY).2 f vX ∧
    Task.getattr t "id" ∈
        tasks_for_custom_data_value (Task.set_custom_data_value t m f vY).2 f vY := by
  refine ⟨?_, ?_⟩
  · exact mem_tasks_for_update_mono _ m _ f vX _ h
  · exact mem_tasks_for_update_self _ m _ f vY (mem_assocSet_self _ _ _)

/-- C3 witness: a task with id 1 and custom data X under f, registered in
the index, then set to Y, is listed under both X and Y. -/
theorem claim_C3_witness :
    Task.getattr (exampleTask [("id", .vInt 1)] [("f", .vStr "X")]) "id" ∈
        tasks_for_custom_data_value
          (Task.set_custom_data_value (exampleTask [("id", .vInt 1)] [("f", .vStr "X")])
            (update_custom_data_value_to_task_map_for_task [] (.vInt 1) [("f", .vStr "X")])
            "f" (.vStr "Y")).2 "f" (.vStr "X") ∧
    Task.getattr (exampleTask [("id", .vInt 1)] [("f", .vStr "X")]) "id" ∈
        tasks_for_custom_data_value
          (Task.set_custom_data_value (exampleTask [("id", .vInt 1)] [("f", .vStr "X")])
            (update_custom_data_value_to_task_map_for_task [] (.vInt 1) [("f", .vStr "X")])
            "f" (.vStr "Y")).2 "f" (.vStr "Y") :=
  claim_C3_stale_bucket _ _ _ _ _ (by decide)

/-! ### C8: custom-data index lookup -/

/-- C8: the custom-data index lookup returns the (possibly empty) bucket of
tasks registered under a (name, value) pair without duplicates: registering
the same task under unchanged custom data is idempotent, the index stays
duplicate-free, and after two different tasks register the same pair the
lookup counts each of them exactly once. -/
theorem claim_C8_custom_index_lookup (m : CustomIndex) (tid1 tid2 : PValue)
    (cd1 cd2 : List (String × PValue)) (k : String) (v : PValue)
    (hnd : NodupIndex m) (h1 : (k, v) ∈ cd1) (h2 : (k, v) ∈ cd2) (_hne : tid1 ≠ tid2) :
    (∀ key value, tasks_for_custom_data_value [] key value = []) ∧
    update_custom_data_value_to_task_map_for_task
        (update_custom_data_value_to_task_map_for_task m tid1 cd1) tid1 cd1 =
      update_custom_data_value_to_task_map_for_task m tid1 cd1 ∧
    NodupIndex (update_custom_data_value_to_task_map_for_task m tid1 cd1) ∧
    (tasks_for_custom_data_value
        (update_custom_data_value_to_task_map_for_task
          (update_custom_data_value_to_task_map_for_task m tid1 cd1) tid2 cd2) k v).count
        tid1 = 1 ∧
    (tasks_for_custom_data_value
        (update_custom_data_value_to_task_map_for_task
          (update_custom_data_value_to_task_map_for_task m tid1 cd1) tid2 cd2) k v).count
        tid2 = 1 := by
  have hnd1 : NodupIndex (update_custom_data_value_to_task_map_for_task m tid1 cd1) :=
    nodupIndex_update cd1 m tid1 hnd
  have hnd2 : NodupIndex (update_custom_data_value_to_task_map_for_task
      (update_custom_data_value_to_task_map_for_task m tid1 cd1) tid2 cd2) :=
    nodupIndex_update cd2 _ tid2 hnd1
  refine ⟨fun key value => rfl, update_map_idem m tid1 cd1, hnd1, ?_, ?_⟩
  · exact List.count_eq_one_of_mem (hnd2 k v)
      (mem_tasks_for_update_mono cd2 _ tid2 k v tid1 (mem_tasks_for_update_self cd1 m tid1 k v h1))
  · exact List.count_eq_one_of_mem (hnd2 k v) (mem_tasks_for_update_self cd2 _ tid2 k v h2)

/-- C8 witness: tasks 1 and 2 both register ("priority", "P1") (task 1
twice); the lookup lists each exactly once. -/
theorem claim_C8_witness :
    update_custom_data_value_to_task_map_for_task
        (update_custom_data_value_to_task_map_for_task [] (.vInt 1)
          [("priority", .vStr "P1")]) (.vInt 1) [("priority", .vStr "P1")] =
      update_custom_data_value_to_task_map_for_task [] (.vInt 1)
        [("priority", .vStr "P1")] ∧
    (tasks_for_custom_data_value
        (update_custom_data_value_to_task_map_for_task
          (update_custom_data_value_to_task_map_for_task [] (.vInt 1)
            [("priority", .vStr "P1")]) (.vInt 2) [("priority", .vStr "P1")]) "priority"
        (.vStr "P1")).count (.vInt 1) = 1 ∧
    (tasks_for_custom_data_value
        (update_custom_data_value_to_task_map_for_task
          (update_custom_data_value_to_task_map_for_task [] (.vInt 1)
            [("priority", .vStr "P1")]) (.vInt 2) [("priority", .vStr "P1")]) "priority"
        (.vStr "P1")).count (.vInt 2) = 1 :=
  ⟨(claim_C8_custom_index_lookup [] (.vInt 1) (.vInt 2) [("priority", .vStr "P1")]
      [("priority", .vStr "P1")] "priority" (.vStr "P1")
      (fun key value => List.nodup_nil) (by decide) (by decide) (by decide)).2.1,
   (claim_C8_custom_index_lookup [] (.vInt 1) (.vInt 2) [("priority", .vStr "P1")]
      [("priority", .vStr "P1")] "priority" (.vStr "P1")
      (fun key value => List.nodup_nil) (by decide) (by decide) (by decide)).2.2.2.1,
   (claim_C8_custom_index_lookup [] (.vInt 1) (.vInt 2) [("priority", .vStr "P1")]
      [("priority", .vStr "P1")] "priority" (.vStr "P1")
      (fun key value => List.nodup_nil) (by decide) (by decide) (by decide)).2.2.2.2⟩

/-! ### C1: what a change record captures -/

/-- C1 counterexample: `set_custom_data_value` on a task whose custom data
holds "X" under "f" appends a record that stores the NEW value "Y", not the
value "X" observed before the mutation (the record is created after the new
value is installed and `SetCustomDataValueTaskChangeRecord` has no
old-value field), refuting the claim for the custom-data half. -/
theorem claim_C1_counterexample :
    Task.custom_data_value (exampleTask [("id", .vInt 1)] [("f", .vStr "X")]) "f" =
        .vStr "X" ∧
    (Task.set_custom_data_value (exampleTask [("id", .vInt 1)] [("f", .vStr "X")]) [] "f"
        (.vStr "Y")).1.change_records = [.setCustomDataValue "f" (.vStr "Y")] ∧
    changeRecordCapturedValue (.setCustomDataValue "f" (.vStr "Y")) ≠
        some (Task.custom_data_value (exampleTask [("id", .vInt 1)] [("f", .vStr "X")]) "f") ∧
    Task.custom_data_value
        (Task.set_custom_data_value (exampleTask [("id", .vInt 1)] [("f", .vStr "X")]) [] "f"
          (.vStr "Y")).1 "f" = .vStr "Y" := by
  refine ⟨by decide, by decide, by decide, by decide⟩

/-- C1 (amended): a mutation of a mutable simple property (effort, name,
completed_effort) appends one record capturing the pre-mutation value,
recorded before the new value is installed; a `set_custom_data_value` call
installs the new value first and then appends one record capturing the
field name and the new value (not the old one). -/
theorem claim_C1_amended_record_capture (t : TaskState) (key : String) (p : MutableProp)
    (value : PValue) (m : CustomIndex) (dataName : String) (w : PValue)
    (hrec : t.has_records = true) (hp : toMutableProp key = some p) :
    (Task.setattr t key value).change_records =
        t.change_records ++ [.simpleProperty p (Task.getattr t key)] ∧
    Task.getattr (Task.setattr t key value) key = value ∧
    (Task.set_custom_data_value t m dataName w).1.change_records =
        t.change_records ++ [.setCustomDataValue dataName w] ∧
    Task.custom_data_value (Task.set_custom_data_value t m dataName w).1 dataName = w := by
  refine ⟨?_, ?_, ?_, ?_⟩
  · simp [Task.setattr, hp, Task.add_change_record, hrec]
  · simp [Task.setattr, Task.getattr, hp, Task.add_change_record, hrec,
      assocLookup_assocSet_self]
  · simp [Task.set_custom_data_value, Task.add_change_record, hrec]
  · simp [Task.set_custom_data_value, Task.add_change_record, hrec, Task.custom_data_value,
      assocLookup_assocSet_self]

/-- C1 witness: the amended statement at a concrete task, for the mutable
simple property `effort` and a custom-data set. -/
theorem claim_C1_witness :
    (Task.setattr (exampleTask [("id", .vInt 1), ("effort", .vInterval 0)] []) "effort"
        (.vInterval 28800)).change_records =
      (exampleTask [("id", .vInt 1), ("effort", .vInterval 0)] []).change_records ++
        [.simpleProperty .effort
          (Task.getattr (exampleTask [("id", .vInt 1), ("effort", .vInterval 0)] [])
            "effort")] ∧
    Task.getattr
        (Task.setattr (exampleTask [("id", .vInt 1), ("effort", .vInterval 0)] []) "effort"
          (.vInterval 28800)) "effort" = .vInterval 28800 ∧
    (Task.set_custom_data_value (exampleTask [("id", .vInt 1), ("effort", .vInterval 0)] [])
        [] "d" (.vStr "Y")).1.change_records =
      (exampleTask [("id", .vInt 1), ("effort", .vInterval 0)] []).change_records ++
        [.setCustomDataValue "d" (.vStr "Y")] ∧
    Task.custom_data_value
        (Task.set_custom_data_value (exampleTask [("id", .vInt 1), ("effort", .vInterval 0)]
          []) [] "d" (.vStr "Y")).1 "d" = .vStr "Y" :=
  claim_C1_amended_record_capture (exampleTask [("id", .vInt 1), ("effort", .vInterval 0)] [])
    "effort" .effort (.vInterval 28800) [] "d" (.vStr "Y") rfl (by decide)

/-! ### C2: commit clears pending records before the bridge call -/

/-- C2: `commit_changes` clears the pending record list before the bridge
call: the pre-bridge state already has no pending records, the state after
`commit_changes` equals that pre-bridge state whatever the bridge does
(dry run or live call, success or failure), and a subsequent commit sends a
script rendering no operations at all - records are consumed exactly
once. -/
theorem claim_C2_commit_consumes_records (n : String) (t : TaskState) (dr : Bool) :
    (Task.commit_prepare n t).1.change_records = [] ∧
    (Task.commit_changes n t dr).1 = (Task.commit_prepare n t).1 ∧
    (Task.commit_changes n (Task.commit_changes n t dr).1 false).2.1 =
      [Task.task_target_wrapper n (pyValueStr (Task.getattr t "id")) "" ++
        Task.doc_target_wrapper n ""] := by
  refine ⟨rfl, ?_, ?_⟩
  · cases dr <;> rfl
  · cases dr <;> rfl

/-! ### C9: commit with no pending records still calls the bridge -/

/-- C9: `commit_changes` with `dry_run = False` performs exactly one
mutation-bridge invocation even when the pending record list is empty: the
(empty) wrapped scope script is still sent. -/
theorem claim_C9_commit_empty_still_sends (n : String) (t : TaskState)
    (h : t.change_records = []) :
    (Task.commit_changes n t false).2.1 =
      [Task.task_target_wrapper n (pyValueStr (Task.getattr t "id")) "" ++
        Task.doc_target_wrapper n ""] ∧
    (Task.commit_changes n t false).2.1.length = 1 := by
  have h1 : (Task.commit_changes n t false).2.1 =
      [Task.task_target_wrapper n (pyValueStr (Task.getattr t "id")) "" ++
        Task.doc_target_wrapper n ""] := by
    unfold Task.commit_changes Task.commit_prepare
    rw [h]
    rfl
  exact ⟨h1, by rw [h1]; rfl⟩

/-- C9 witness: a clean task committed live sends exactly one (empty)
wrapped script. -/
theorem claim_C9_witness :
    (Task.commit_changes "Project" (exampleTask [("id", .vInt 5)] []) false).2.1 =
      [Task.task_target_wrapper "Project"
          (pyValueStr (Task.getattr (exampleTask [("id", .vInt 5)] []) "id")) "" ++
        Task.doc_target_wrapper "Project" ""] ∧
    (Task.commit_changes "Project" (exampleTask [("id", .vInt 5)] []) false).2.1.length = 1 :=
  claim_C9_commit_empty_still_sends "Project" (exampleTask [("id", .vInt 5)] []) rfl

/-! ### C4: ordering of rendered operations -/

/-- C4 counterexample: with a pending document-scoped record (a resource
assignment) recorded before a task-scoped one (an effort set), the rendered
operations do not follow the recorded order - the task-scoped operation is
rendered first - so `commit_changes` does not apply the records of a task
in the exact order they were recorded. -/
theorem claim_C4_counterexample :
    Task.commit_rendered_operations
        (Task.setattr
          (Task.assign_to_resource (exampleTask [("id", .vInt 5), ("effort", .vInterval 0)] [])
            (.vInt 7)) "effort" (.vInterval 28800)) ≠
      (Task.setattr
          (Task.assign_to_resource (exampleTask [("id", .vInt 5), ("effort", .vInterval 0)] [])
            (.vInt 7)) "effort" (.vInterval 28800)).change_records.map
        (Task.change_applescript_code
          (Task.clear_change_records
            (Task.setattr
              (Task.assign_to_resource
                (exampleTask [("id", .vInt 5), ("effort", .vInterval 0)] []) (.vInt 7))
              "effort" (.vInterval 28800)))) := by
  decide

/-- C4 (amended): the combined script renders the task-scoped records in
recorded order inside the task wrapper, followed by the document-scoped
records in recorded order inside the document wrapper; when every pending
record is task-scoped the rendered operations follow exactly the recorded
order; same-property records are never coalesced: setting `effort` twice
appends two records in order - the first capturing the value held before
either mutation - and commit renders two operations for them. -/
theorem claim_C4_amended_scope_ordering (n : String) (t : TaskState) (v1 v2 : PValue)
    (hrec : t.has_records = true) :
    ((Task.commit_prepare n t).2 =
      Task.task_target_wrapper n (pyValueStr (Task.getattr t "id"))
          (String.intercalate "\n"
            ((t.change_records.filter (fun r => !r.targets_document)).map
              (Task.change_applescript_code (Task.clear_change_records t)))) ++
        Task.doc_target_wrapper n
          (String.intercalate "\n"
            ((t.change_records.filter (fun r => r.targets_document)).map
              (Task.change_applescript_code (Task.clear_change_records t))))) ∧
    ((∀ r ∈ t.change_records, r.targets_document = false) →
      Task.commit_rendered_operations t =
        t.change_records.map (Task.change_applescript_code (Task.clear_change_records t))) ∧
    ((Task.setattr (Task.setattr t "effort" v1) "effort" v2).change_records =
      t.change_records ++
        [.simpleProperty .effort (Task.getattr t "effort"), .simpleProperty .effort v1]) ∧
    (t.change_records = [] →
      (Task.commit_rendered_operations
          (Task.setattr (Task.setattr t "effort" v1) "effort" v2)).length = 2) := by
  have hmp : toMutableProp "effort" = some MutableProp.effort := by decide
  have hset : ∀ (s : TaskState) (v : PValue), s.has_records = true →
      (Task.setattr s "effort" v).change_records =
        s.change_records ++ [.simpleProperty .effort (Task.getattr s "effort")] ∧
      Task.getattr (Task.setattr s "effort" v) "effort" = v ∧
      (Task.setattr s "effort" v).has_records = true := by
    intro s v hs
    refine ⟨?_, ?_, ?_⟩ <;>
      simp [Task.setattr, hmp, Task.add_change_record, hs, Task.getattr,
        assocLookup_assocSet_self]
  obtain ⟨ha1, ha2, ha3⟩ := hset t v1 hrec
  obtain ⟨hb1, hb2, hb3⟩ := hset (Task.setattr t "effort" v1) v2 ha3
  have hdouble : (Task.setattr (Task.setattr t "effort" v1) "effort" v2).change_records =
      t.change_records ++
        [.simpleProperty .effort (Task.getattr t "effort"), .simpleProperty .effort v1] := by
    rw [hb1, ha1, ha2, List.append_assoc]
    rfl
  refine ⟨rfl, ?_, hdouble, ?_⟩
  · intro hall
    unfold Task.commit_rendered_operations
    rw [List.filter_eq_self.mpr (fun r hr => by simp [hall r hr]),
      List.filter_eq_nil_iff.mpr (fun r hr => by simp [hall r hr])]
    simp
  · intro h0
    have hr2 : (Task.setattr (Task.setattr t "effort" v1) "effort" v2).change_records =
        [.simpleProperty .effort (Task.getattr t "effort"), .simpleProperty .effort v1] := by
      rw [hdouble, h0]
      rfl
    simp [Task.commit_rendered_operations, hr2, ChangeRecord.targets_document]

/-- C4 witness: the amended ordering statement at a concrete task, with the
double-set scenario producing two ordered records and two rendered
operations, and an all-task-scoped record list rendered in recorded
order. -/
theorem claim_C4_witness :
    ((Task.setattr
        (Task.setattr (exampleTask [("id", .vInt 5), ("effort", .vInterval 0)] []) "effort"
          (.vInterval 100)) "effort" (.vInterval 200)).change_records =
      (exampleTask [("id", .vInt 5), ("effort", .vInterval 0)] []).change_records ++
        [.simpleProperty .effort
            (Task.getattr (exampleTask [("id", .vInt 5), ("effort", .vInterval 0)] [])
              "effort"),
          .simpleProperty .effort (.vInterval 100)]) ∧
    ((∀ r ∈ (exampleTask [("id", .vInt 5), ("effort", .vInterval 0)] []).change_records,
        r.targets_document = false) →
      Task.commit_rendered_operations (exampleTask [("id", .vInt 5), ("effort", .vInterval 0)] []) =
        (exampleTask [("id", .vInt 5), ("effort", .vInterval 0)] []).change_records.map
          (Task.change_applescript_code
            (Task.clear_change_records
              (exampleTask [("id", .vInt 5), ("effort", .vInterval 0)] [])))) ∧
    (Task.commit_rendered_operations
        (Task.setattr
          (Task.setattr (exampleTask [("id", .vInt 5), ("effort", .vInterval 0)] []) "effort"
            (.vInterval 100)) "effort" (.vInterval 200))).length = 2 :=
  ⟨(claim_C4_amended_scope_ordering "Project"
      (exampleTask [("id", .vInt 5), ("effort", .vInterval 0)] []) (.vInterval 100)
      (.vInterval 200) rfl).2.2.1,
   (claim_C4_amended_scope_ordering "Project"
      (exampleTask [("id", .vInt 5), ("effort", .vInterval 0)] []) (.vInterval 100)
      (.vInterval 200) rfl).2.1,
   (claim_C4_amended_scope_ordering "Project"
      (exampleTask [("id", .vInt 5), ("effort", .vInterval 0)] []) (.vInterval 100)
      (.vInterval 200) rfl).2.2.2 rfl⟩

/-! ### C7: four-character-code conversion -/

/-- C7: decoding the 32-bit big-endian integer 1330664531 yields the byte
string "OPTS" and encoding "OPTS" yields 1330664531; for every 32-bit value
whose four big-endian bytes are printable, and every 4-byte printable
string, `string_to_value` and `value_to_string` are exact inverses. -/
theorem claim_C7_fourcc_roundtrip :
    FourCharacterCode.value_to_string 1330664531 = some [79, 80, 84, 83] ∧
    FourCharacterCode.string_to_value [79, 80, 84, 83] = some 1330664531 ∧
    (∀ v bs, FourCharacterCode.value_to_string v = some bs →
      (∀ b ∈ bs, 32 ≤ b ∧ b ≤ 126) → FourCharacterCode.string_to_value bs = some v) ∧
    (∀ s v, FourCharacterCode.string_to_value s = some v →
      (∀ b ∈ s, 32 ≤ b ∧ b ≤ 126) → FourCharacterCode.value_to_string v = some s) := by
  refine ⟨by decide, by decide, ?_, ?_⟩
  · intro v bs hv _
    unfold FourCharacterCode.value_to_string at hv
    by_cases hc : v < -2147483648 ∨ 2147483648 ≤ v
    · rw [if_pos hc] at hv; exact absurd hv (by simp)
    · rw [if_neg hc] at hv
      push_neg at hc
      obtain ⟨hc1, hc2⟩ := hc
      simp only [Option.some.injEq] at hv
      subst hv
      have hm0 : (0 : Int) ≤ v % 4294967296 := Int.emod_nonneg v (by norm_num)
      have hm1 : v % 4294967296 < 4294967296 := Int.emod_lt_of_pos v (by norm_num)
      have hu : ((v % 4294967296).toNat : Int) = v % 4294967296 := Int.toNat_of_nonneg hm0
      simp only [FourCharacterCode.string_to_value]
      rw [if_pos (by omega)]
      simp only [Option.some.injEq]
      split <;> omega
  · intro s v hs hpr
    match s with
    | [] => exact absurd hs (by simp [FourCharacterCode.string_to_value])
    | [a] => exact absurd hs (by simp [FourCharacterCode.string_to_value])
    | [a, b] => exact absurd hs (by simp [FourCharacterCode.string_to_value])
    | [a, b, c] => exact absurd hs (by simp [FourCharacterCode.string_to_value])
    | a :: b :: c :: d :: e :: rest =>
      exact absurd hs (by simp [FourCharacterCode.string_to_value])
    | [a, b, c, d] =>
      simp only [FourCharacterCode.string_to_value] at hs
      by_cases hb : a < 256 ∧ b < 256 ∧ c < 256 ∧ d < 256
      · rw [if_pos hb] at hs
        obtain ⟨hb1, hb2, hb3, hb4⟩ := hb
        simp only [Option.some.injEq] at hs
        unfold FourCharacterCode.value_to_string
        rw [if_neg (by split at hs <;> omega)]
        simp only [Option.some.injEq, List.cons.injEq, and_true]
        have hm0 : (0 : Int) ≤ v % 4294967296 := Int.emod_nonneg v (by norm_num)
        have hu : ((v % 4294967296).toNat : Int) = v % 4294967296 := Int.toNat_of_nonneg hm0
        refine ⟨?_, ?_, ?_, ?_⟩ <;> (split at hs <;> omega)
      · rw [if_neg hb] at hs; exact absurd hs (by simp)

/-- C7 witness: the inverse laws applied to the concrete value 1330664531
and the concrete byte string "OPTS". -/
theorem claim_C7_witness :
    FourCharacterCode.string_to_value [79, 80, 84, 83] = some 1330664531 ∧
    FourCharacterCode.value_to_string 1330664531 = some [79, 80, 84, 83] :=
  ⟨claim_C7_fourcc_roundtrip.2.2.1 1330664531 [79, 80, 84, 83] (by decide) (by decide),
   claim_C7_fourcc_roundtrip.2.2.2 [79, 80, 84, 83] 1330664531 (by decide) (by decide)⟩

/-! ### C10: WorkDayTimeInterval constructor -/

/-- C10: in the `WorkDayTimeInterval` constructor a falsy `seconds`
argument (0 or omitted) is treated as absent, so a nonzero `workdays` value
w yields w * 28800 seconds; `seconds=0` alone yields 0 seconds; a nonzero
`seconds` argument always takes precedence over `workdays`. -/
theorem claim_C10_workday_interval_init (w s : Int) (hw : w ≠ 0) (hs : s ≠ 0) :
    workDayTimeIntervalSeconds (some 0) (some w) = w * 28800 ∧
    workDayTimeIntervalSeconds none (some w) = w * 28800 ∧
    workDayTimeIntervalSeconds (some 0) none = 0 ∧
    ∀ wopt : Option Int, workDayTimeIntervalSeconds (some s) wopt = s := by
  refine ⟨?_, ?_, ?_, fun wopt => ?_⟩ <;>
    norm_num [workDayTimeIntervalSeconds, pyTruthyInt, hw, hs, SECONDS_PER_WORKDAY]

/-- C10 witness: `seconds=0, workdays=4` gives 115200 seconds; `seconds=0`
alone gives 0; `seconds=3` wins over `workdays=4`. -/
theorem claim_C10_witness :
    workDayTimeIntervalSeconds (some 0) (some 4) = 4 * 28800 ∧
    workDayTimeIntervalSeconds (some 0) none = 0 ∧
    workDayTimeIntervalSeconds (some 3) (some 4) = 3 :=
  ⟨(claim_C10_workday_interval_init 4 3 (by norm_num) (by norm_num)).1,
   (claim_C10_workday_interval_init 4 3 (by norm_num) (by norm_num)).2.2.1,
   (claim_C10_workday_interval_init 4 3 (by norm_num) (by norm_num)).2.2.2 (some 4)⟩

/-! ### C6: dependency registration symmetry -/

theorem task_for_id_modify (d : DocState) (i j : PValue) (f : TaskState → TaskState) :
    task_for_id (modify_task d i f) j =
      if j = i then (task_for_id d i).map f else task_for_id d j :=
  assocLookup_assocModify d.task_map i j f

theorem prerequisite_tasks_add_dependent (t : TaskState) (e : TaskDependencyRec) :
    prerequisite_tasks (add_dependent t e) = prerequisite_tasks t := rfl

theorem prerequisite_tasks_add_prerequisite (t : TaskState) (e : TaskDependencyRec) :
    prerequisite_tasks (add_prerequisite t e) =
      prerequisite_tasks t ++ [e.prerequisite_task] := by
  simp [prerequisite_tasks, add_prerequisite]

theorem dependent_tasks_add_prerequisite (t : TaskState) (e : TaskDependencyRec) :
    dependent_tasks (add_prerequisite t e) = dependent_tasks t := rfl

theorem dependent_tasks_add_dependent (t : TaskState) (e : TaskDependencyRec) :
    dependent_tasks (add_dependent t e) = dependent_tasks t ++ [e.dependent_task] := by
  simp [dependent_tasks, add_dependent]

theorem hasPrereqEdge_taskDependency_init (d : DocState) (pre dep : PValue) (ty : List Nat)
    (who target : PValue) (h : HasPrereqEdge d who target) :
    HasPrereqEdge (taskDependency_init d pre dep ty) who target := by
  obtain ⟨t, ht, hmem⟩ := h
  simp only [taskDependency_init, HasPrereqEdge]
  by_cases h1 : who = dep
  · subst h1
    rw [task_for_id_modify, if_pos rfl, task_for_id_modify]
    by_cases h2 : who = pre
    · subst h2
      rw [if_pos rfl, ht]
      refine ⟨_, rfl, ?_⟩
      rw [prerequisite_tasks_add_prerequisite, prerequisite_tasks_add_dependent]
      exact List.mem_append_left _ hmem
    · rw [if_neg h2, ht]
      refine ⟨_, rfl, ?_⟩
      rw [prerequisite_tasks_add_prerequisite]
      exact List.mem_append_left _ hmem
  · rw [task_for_id_modify, if_neg h1, task_for_id_modify]
    by_cases h2 : who = pre
    · subst h2
      rw [if_pos rfl, ht]
      exact ⟨_, rfl, by rw [prerequisite_tasks_add_dependent]; exact hmem⟩
    · rw [if_neg h2]
      exact ⟨t, ht, hmem⟩

theorem hasDependentEdge_taskDependency_init (d : DocState) (pre dep : PValue) (ty : List Nat)
    (who target : PValue) (h : HasDependentEdge d who target) :
    HasDependentEdge (taskDependency_init d pre dep ty) who target := by
  obtain ⟨t, ht, hmem⟩ := h
  simp only [taskDependency_init, HasDependentEdge]
  by_cases h1 : who = dep
  · subst h1
    rw [task_for_id_modify, if_pos rfl, task_for_id_modify]
    by_cases h2 : who = pre
    · subst h2
      rw [if_pos rfl, ht]
      refine ⟨_, rfl, ?_⟩
      rw [dependent_tasks_add_prerequisite, dependent_tasks_add_dependent]
      exact List.mem_append_left _ hmem
    · rw [if_neg h2, ht]
      refine ⟨_, rfl, ?_⟩
      rw [dependent_tasks_add_prerequisite]
      exact hmem
  · rw [task_for_id_modify, if_neg h1, task_for_id_modify]
    by_cases h2 : who = pre
    · subst h2
      rw [if_pos rfl, ht]
      refine ⟨_, rfl, ?_⟩
      rw [dependent_tasks_add_dependent]
      exact List.mem_append_left _ hmem
    · rw [if_neg h2]
      exact ⟨t, ht, hmem⟩

theorem taskDependency_init_registers (d : DocState) (pre dep : PValue) (ty : List Nat)
    (tp td : TaskState) (hp : task_for_id d pre = some tp)
    (hd : task_for_id d dep = some td) :
    HasPrereqEdge (taskDependency_init d pre dep ty) dep pre ∧
    HasDependentEdge (taskDependency_init d pre dep ty) pre dep := by
  constructor
  · simp only [taskDependency_init, HasPrereqEdge]
    rw [task_for_id_modify, if_pos rfl, task_for_id_modify]
    by_cases h : dep = pre
    · subst h
      rw [if_pos rfl, hd]
      refine ⟨_, rfl, ?_⟩
      rw [prerequisite_tasks_add_prerequisite]
      simp
    · rw [if_neg h, hd]
      refine ⟨_, rfl, ?_⟩
      rw [prerequisite_tasks_add_prerequisite]
      simp
  · simp only [taskDependency_init, HasDependentEdge]
    rw [task_for_id_modify]
    by_cases h : pre = dep
    · subst h
      rw [if_pos rfl, task_for_id_modify, if_pos rfl, hp]
      refine ⟨_, rfl, ?_⟩
      rw [dependent_tasks_add_prerequisite, dependent_tasks_add_dependent]
      simp
    · rw [if_neg h, task_for_id_modify, if_pos rfl, hp]
      refine ⟨_, rfl, ?_⟩
      rw [dependent_tasks_add_dependent]
      simp

theorem process_one_dependency_ok (d : DocState) (pd : PrereqDescriptor) (d1 : DocState)
    (h : process_one_dependency d pd = .ok d1) :
    ∃ tp td ty, task_for_id d (.vInt pd.prerequisite_task_id) = some tp ∧
      task_for_id d (.vInt pd.dependent_task_id) = some td ∧
      FourCharacterCode.value_to_string pd.dependency_type = some ty ∧
      d1 = taskDependency_init d (.vInt pd.prerequisite_task_id)
        (.vInt pd.dependent_task_id) ty := by
  unfold process_one_dependency at h
  split at h
  · next tp td ty h1 h2 h3 =>
      injection h with hh
      exact ⟨tp, td, ty, h1, h2, h3, hh.symm⟩
  · simp at h

theorem process_descriptor_list_ok_cons (d : DocState) (pd : PrereqDescriptor)
    (rest : List PrereqDescriptor) (d2 : DocState)
    (h : process_descriptor_list d (pd :: rest) = .ok d2) :
    ∃ d1, process_one_dependency d pd = .ok d1 ∧
      process_descriptor_list d1 rest = .ok d2 := by
  unfold process_descriptor_list at h
  cases hx : process_one_dependency d pd with
  | error e => rw [hx] at h; simp at h
  | ok d1 => rw [hx] at h; exact ⟨d1, rfl, h⟩

theorem hasEdges_process_descriptor_list (l : List PrereqDescriptor) :
    ∀ (d d2 : DocState), process_descriptor_list d l = .ok d2 → ∀ who target : PValue,
      (HasPrereqEdge d who target → HasPrereqEdge d2 who target) ∧
      (HasDependentEdge d who target → HasDependentEdge d2 who target) := by
  induction l with
  | nil =>
    intro d d2 h who target
    have hd : d = d2 := by
      simp only [process_descriptor_list] at h
      injection h
    subst hd
    exact ⟨id, id⟩
  | cons q rest ih =>
    intro d d2 h who target
    obtain ⟨d1, hq, hrest⟩ := process_descriptor_list_ok_cons d q rest d2 h
    obtain ⟨tp, td, ty, hp1, hd1, hty, hinit⟩ := process_one_dependency_ok d q d1 hq
    subst hinit
    exact ⟨fun hx => (ih _ d2 hrest who target).1
        (hasPrereqEdge_taskDependency_init _ _ _ _ _ _ hx),
      fun hx => (ih _ d2 hrest who target).2
        (hasDependentEdge_taskDependency_init _ _ _ _ _ _ hx)⟩

theorem process_descriptor_list_establishes (l : List PrereqDescriptor) :
    ∀ (d d2 : DocState), process_descriptor_list d l = .ok d2 → ∀ pd ∈ l,
      HasPrereqEdge d2 (.vInt pd.dependent_task_id) (.vInt pd.prerequisite_task_id) ∧
      HasDependentEdge d2 (.vInt pd.prerequisite_task_id) (.vInt pd.dependent_task_id) := by
  induction l with
  | nil => intro d d2 h pd hpd; simp at hpd
  | cons q rest ih =>
    intro d d2 h pd hpd
    obtain ⟨d1, hq, hrest⟩ := process_descriptor_list_ok_cons d q rest d2 h
    rcases List.mem_cons.mp hpd with h1 | h2
    · subst h1
      obtain ⟨tp, td, ty, hp1, hd1, hty, hinit⟩ := process_one_dependency_ok d pd d1 hq
      subst hinit
      have hreg := taskDependency_init_registers d _ _ ty tp td hp1 hd1
      exact ⟨(hasEdges_process_descriptor_list rest _ d2 hrest _ _).1 hreg.1,
        (hasEdges_process_descriptor_list rest _ d2 hrest _ _).2 hreg.2⟩
    · exact ih d1 d2 hrest pd h2

theorem mem_foldr_prereq (l : List (PValue × TaskState)) (i : PValue) (tB : TaskState)
    (hmem : (i, tB) ∈ l) (pd : PrereqDescriptor) (hpd : pd ∈ tB.prerequisites_data) :
    pd ∈ l.foldr (fun p acc => p.2.prerequisites_data ++ acc) [] := by
  induction l with
  | nil => simp at hmem
  | cons q rest ih =>
    rcases List.mem_cons.mp hmem with h1 | h2
    · rw [← h1]
      exact List.mem_append_left _ hpd
    · exact List.mem_append_right _ (ih h2)

/-- C6: `TaskDependency` construction registers the edge symmetrically, so
after `process_dependencies` succeeds on a loaded document, every raw
prerequisite descriptor of every task has produced both an entry in the
dependent task's `prerequisite_tasks()` naming the prerequisite task and an
entry in the prerequisite task's `dependent_tasks()` naming the dependent
task. -/
theorem claim_C6_dependency_symmetry (d d2 : DocState) (i : PValue) (tB : TaskState)
    (pd : PrereqDescriptor) (hok : process_dependencies d = .ok d2)
    (hmem : (i, tB) ∈ d.task_map) (hpd : pd ∈ tB.prerequisites_data) :
    HasPrereqEdge d2 (.vInt pd.dependent_task_id) (.vInt pd.prerequisite_task_id) ∧
    HasDependentEdge d2 (.vInt pd.prerequisite_task_id) (.vInt pd.dependent_task_id) :=
  process_descriptor_list_establishes (all_prerequisites_data d) d d2 hok pd
    (mem_foldr_prereq d.task_map i tB hmem pd hpd)

/-- C6 witness: in the loaded three-task document, task 2's descriptor
naming task 3 as prerequisite yields `3 ∈ prerequisite_tasks(2)` and
`2 ∈ dependent_tasks(3)` after dependency processing. -/
theorem claim_C6_witness :
    HasPrereqEdge exampleDocProcessed (.vInt 2) (.vInt 3) ∧
    HasDependentEdge exampleDocProcessed (.vInt 3) (.vInt 2) :=
  claim_C6_dependency_symmetry exampleDoc exampleDocProcessed (.vInt 2) exampleTaskB
    { prerequisite_task_id := 3, dependent_task_id := 2, dependency_type := 1330664531 }
    (by rfl) (by decide) (by decide)

/-! ### C5: constructor key checking -/

theorem task_init_loop_cons_decode_none (key : String) (value : WireValue)
    (rest : List (String × WireValue)) (acc : TaskInitState)
    (hv : decode_property_value key value = none) :
    task_init_loop ((key, value) :: rest) acc = .error (.decodeError key) := by
  simp only [task_init_loop, hv]

theorem task_init_loop_cons_known (key : String) (value v : WireValue)
    (rest : List (String × WireValue)) (acc : TaskInitState)
    (hv : decode_property_value key value = some v) (h1 : key ∈ simple_properties) :
    task_init_loop ((key, value) :: rest) acc =
      task_init_loop rest { acc with attrs := assocSet acc.attrs key v } := by
  simp only [task_init_loop, hv]
  rw [if_pos h1]

theorem task_init_loop_cons_child (value v : WireValue)
    (rest : List (String × WireValue)) (acc : TaskInitState)
    (hv : decode_property_value "child_tasks" value = some v) :
    task_init_loop (("child_tasks", value) :: rest) acc =
      task_init_loop rest { acc with child_tasks_raw := some v } := by
  simp only [task_init_loop, hv]
  rw [if_neg (by decide : ¬ ("child_tasks" ∈ simple_properties))]
  simp

theorem task_init_loop_cons_unknown (key : String) (value v : WireValue)
    (rest : List (String × WireValue)) (acc : TaskInitState)
    (hv : decode_property_value key value = some v) (h1 : key ∉ simple_properties)
    (h2 : key ≠ "child_tasks") :
    task_init_loop ((key, value) :: rest) acc = .error (.unknownKey key) := by
  simp only [task_init_loop, hv]
  rw [if_neg h1, if_neg h2]

theorem task_init_loop_unknown (bag : List (String × WireValue)) :
    ∀ acc : TaskInitState,
      (∀ kv ∈ bag, (decode_property_value kv.1 kv.2).isSome = true) →
      (∃ kv ∈ bag, kv.1 ∉ simple_properties ∧ kv.1 ≠ "child_tasks") →
      ∃ u, task_init_loop bag acc = .error (.unknownKey u) ∧ u ∈ bag.map Prod.fst ∧
        u ∉ simple_properties ∧ u ≠ "child_tasks" := by
  induction bag with
  | nil => intro acc _ hex; simp at hex
  | cons q rest ih =>
    intro acc hdec hex
    obtain ⟨key, value⟩ := q
    obtain ⟨v, hv⟩ :=
      Option.isSome_iff_exists.mp (hdec (key, value) (List.mem_cons_self _ _))
    have hdec2 : ∀ kv ∈ rest, (decode_property_value kv.1 kv.2).isSome = true :=
      fun kv hkv => hdec kv (List.mem_cons_of_mem _ hkv)
    by_cases h1 : key ∈ simple_properties
    · have hex2 : ∃ kv ∈ rest, kv.1 ∉ simple_properties ∧ kv.1 ≠ "child_tasks" := by
        obtain ⟨w, hw, hw1, hw2⟩ := hex
        rcases List.mem_cons.mp hw with hh | hh
        · rw [hh] at hw1
          exact absurd h1 hw1
        · exact ⟨w, hh, hw1, hw2⟩
      rw [task_init_loop_cons_known key value v rest acc hv h1]
      obtain ⟨u, hu1, hu2, hu3, hu4⟩ := ih _ hdec2 hex2
      exact ⟨u, hu1, by simp only [List.map_cons]; exact List.mem_cons_of_mem _ hu2, hu3, hu4⟩
    · by_cases h2 : key = "child_tasks"
      · subst h2
        have hex2 : ∃ kv ∈ rest, kv.1 ∉ simple_properties ∧ kv.1 ≠ "child_tasks" := by
          obtain ⟨w, hw, hw1, hw2⟩ := hex
          rcases List.mem_cons.mp hw with hh | hh
          · rw [hh] at hw2
            exact absurd rfl hw2
          · exact ⟨w, hh, hw1, hw2⟩
        rw [task_init_loop_cons_child value v rest acc hv]
        obtain ⟨u, hu1, hu2, hu3, hu4⟩ := ih _ hdec2 hex2
        exact ⟨u, hu1, by simp only [List.map_cons]; exact List.mem_cons_of_mem _ hu2, hu3,
          hu4⟩
      · rw [task_init_loop_cons_unknown key value v rest acc hv h1 h2]
        exact ⟨key, rfl, by simp, h1, h2⟩

theorem task_init_loop_all_known (bag : List (String × WireValue)) :
    ∀ acc : TaskInitState,
      (∀ kv ∈ bag, (decode_property_value kv.1 kv.2).isSome = true) →
      (∀ kv ∈ bag, kv.1 ∈ simple_properties ∨ kv.1 = "child_tasks") →
      ∃ st, task_init_loop bag acc = .ok st := by
  induction bag with
  | nil => intro acc _ _; exact ⟨acc, rfl⟩
  | cons q rest ih =>
    intro acc hdec hall
    obtain ⟨key, value⟩ := q
    obtain ⟨v, hv⟩ :=
      Option.isSome_iff_exists.mp (hdec (key, value) (List.mem_cons_self _ _))
    have hdec2 : ∀ kv ∈ rest, (decode_property_value kv.1 kv.2).isSome = true :=
      fun kv hkv => hdec kv (List.mem_cons_of_mem _ hkv)
    have hall2 : ∀ kv ∈ rest, kv.1 ∈ simple_properties ∨ kv.1 = "child_tasks" :=
      fun kv hkv => hall kv (List.mem_cons_of_mem _ hkv)
    rcases hall (key, value) (List.mem_cons_self _ _) with h1 | h1
    · rw [task_init_loop_cons_known key value v rest acc hv h1]
      exact ih _ hdec2 hall2
    · subst h1
      rw [task_init_loop_cons_child value v rest acc hv]
      exact ih _ hdec2 hall2

theorem task_init_loop_ok_keys (bag : List (String × WireValue)) :
    ∀ (acc st : TaskInitState), task_init_loop bag acc = .ok st →
      ∀ kv ∈ bag, kv.1 ∈ simple_properties ∨ kv.1 = "child_tasks" := by
  induction bag with
  | nil => intro acc st _ kv hkv; simp at hkv
  | cons q rest ih =>
    intro acc st h kv hkv
    obtain ⟨key, value⟩ := q
    cases hv : decode_property_value key value with
    | none =>
      rw [task_init_loop_cons_decode_none key value rest acc hv] at h
      simp at h
    | some v =>
      by_cases h1 : key ∈ simple_properties
      · rw [task_init_loop_cons_known key value v rest acc hv h1] at h
        rcases List.mem_cons.mp hkv with hh | hh
        · rw [hh]
          exact Or.inl h1
        · exact ih _ st h kv hh
      · by_cases h2 : key = "child_tasks"
        · subst h2
          rw [task_init_loop_cons_child value v rest acc hv] at h
          rcases List.mem_cons.mp hkv with hh | hh
          · rw [hh]
            exact Or.inr rfl
          · exact ih _ st h kv hh
        · rw [task_init_loop_cons_unknown key value v rest acc hv h1 h2] at h
          simp at h

/-- C5: for every property bag given to the `Task` constructor (with
decodable values): a key that is neither a known simple property nor
`child_tasks` makes construction fail with an error naming such a key; if
no key is unknown and a required simple property is absent, construction
fails with an error naming the missing property; and a successful
construction implies every key of the bag was a known simple property or
`child_tasks` - no key is silently dropped. -/
theorem claim_C5_task_init_checks (bag : List (String × WireValue))
    (hdec : ∀ kv ∈ bag, (decode_property_value kv.1 kv.2).isSome = true) :
    ((∃ kv ∈ bag, kv.1 ∉ simple_properties ∧ kv.1 ≠ "child_tasks") →
      ∃ u, task_init bag = .error (.unknownKey u) ∧ u ∈ bag.map Prod.fst ∧
        u ∉ simple_properties ∧ u ≠ "child_tasks") ∧
    ((∀ kv ∈ bag, kv.1 ∈ simple_properties ∨ kv.1 = "child_tasks") →
      ∀ r ∈ simple_properties, r ∉ bag.map Prod.fst →
        ∃ ms, task_init bag = .error (.missingKeys ms) ∧ r ∈ ms) ∧
    (∀ st, task_init bag = .ok st →
      ∀ kv ∈ bag, kv.1 ∈ simple_properties ∨ kv.1 = "child_tasks") := by
  refine ⟨?_, ?_, ?_⟩
  · intro hex
    obtain ⟨u, hu1, hu2, hu3, hu4⟩ :=
      task_init_loop_unknown bag { attrs := [], child_tasks_raw := none } hdec hex
    refine ⟨u, ?_, hu2, hu3, hu4⟩
    unfold task_init
    rw [hu1]
  · intro hall r hr hrmiss
    obtain ⟨st, hst⟩ :=
      task_init_loop_all_known bag { attrs := [], child_tasks_raw := none } hdec hall
    have hmem : r ∈ simple_properties.filter
        (fun p => decide (p ∉ bag.map (fun kv => kv.1))) := by
      rw [List.mem_filter]
      refine ⟨hr, ?_⟩
      simpa using hrmiss
    have hne : (simple_properties.filter
        (fun p => decide (p ∉ bag.map (fun kv => kv.1)))).isEmpty = false := by
      cases hl : simple_properties.filter (fun p => decide (p ∉ bag.map (fun kv => kv.1))) with
      | nil =>
        rw [hl] at hmem
        simp at hmem
      | cons a l => rfl
    refine ⟨_, ?_, hmem⟩
    unfold task_init
    rw [hst]
    show (if (simple_properties.filter
          (fun p => decide (p ∉ bag.map (fun kv => kv.1)))).isEmpty = true
        then Except.ok st
        else Except.error (InitError.missingKeys (simple_properties.filter
          (fun p => decide (p ∉ bag.map (fun kv => kv.1)))))) =
      Except.error (InitError.missingKeys (simple_properties.filter
        (fun p => decide (p ∉ bag.map (fun kv => kv.1)))))
    rw [hne]
    simp
  · intro st hok kv hkv
    unfold task_init at hok
    cases hloop : task_init_loop bag { attrs := [], child_tasks_raw := none } with
    | error e =>
      rw [hloop] at hok
      simp at hok
    | ok st2 => exact task_init_loop_ok_keys bag _ st2 hloop kv hkv

/-- C5 witness: a bag carrying the unknown key "bogus" fails naming it, and
a bag missing the required property `effort` fails naming `effort`. -/
theorem claim_C5_witness :
    (∃ u, task_init demoBagUnknown = .error (.unknownKey u) ∧
      u ∈ demoBagUnknown.map Prod.fst ∧ u ∉ simple_properties ∧ u ≠ "child_tasks") ∧
    (∃ ms, task_init demoBagMissingEffort = .error (.missingKeys ms) ∧ "effort" ∈ ms) :=
  ⟨(claim_C5_task_init_checks demoBagUnknown (by decide)).1 (by decide),
   (claim_C5_task_init_checks demoBagMissingEffort (by decide)).2.1 (by decide) "effort"
     (by decide) (by decide)⟩

end OmniPlan
